import Mathlib

/- The Batteries rational arithmetic is irreducible by default, which
blocks kernel evaluation of concrete states; restore semireducibility so
decide can evaluate the model on concrete inputs. -/
attribute [local semireducible] Rat.add Rat.mul Rat.inv Rat.sub

/- Shallow embedding of the Track Playback & Waypoint Synchronization Engine
   of src/components/Map.tsx (the startAnimation closure and its animate
   frame callback), together with the pace block it contains.  JavaScript
   f64 values are modelled as exact rationals; wall-clock instants are
   rational milliseconds.  The external map renderer, the DOM and the video
   pipeline are outside the model; the values the engine hands to them are
   exposed as outputs of the tick function. -/

namespace Relive

/-- Photo waypoint record, from interface PhotoWaypoint (Map.tsx 13-21).
A freshly uploaded photo carries the placeholder location lat = 0, lng = 0
with hasGPS = false until EXIF extraction supplies coordinates. -/
structure PhotoWaypoint where
  id : String
  url : String
  lat : ℚ
  lng : ℚ
  shown : Bool
  hasGPS : Bool
  timestamp : Option ℚ
deriving DecidableEq

/-- Integer-indexed list access: a negative index reads as absent, mirroring
JavaScript array indexing yielding undefined. -/
def getI (l : List (ℚ × ℚ)) (i : ℤ) : Option (ℚ × ℚ) :=
  if 0 ≤ i then l.get? i.toNat else none

/-- Math.floor on an exact rational, in a form the kernel evaluates;
jsFloor_eq_floor below identifies it with the mathematical floor. -/
def jsFloor (q : ℚ) : ℤ :=
  q.num / q.den

theorem jsFloor_eq_floor (q : ℚ) : jsFloor q = ⌊q⌋ :=
  Rat.floor_def.symm

/-- Interpolated track position, from animate (Map.tsx 464-481): fractional
index progress * (totalPoints - 1), floor index and its successor clamped to
the last index, linear interpolation of longitude and latitude; an absent
sample (index out of range) yields none, mirroring the currentP / nextP
guard that re-arms the frame and skips the rest of the tick. -/
def positionAt (coords : List (ℚ × ℚ)) (progress : ℚ) : Option (ℚ × ℚ) :=
  let totalPoints := coords.length
  let floatIndex := progress * ((totalPoints : ℚ) - 1)
  let idx : ℤ := jsFloor floatIndex
  let nextIdx : ℤ := min (idx + 1) ((totalPoints : ℤ) - 1)
  let t : ℚ := floatIndex - (idx : ℚ)
  match getI coords idx, getI coords nextIdx with
  | some currentP, some nextP =>
      some (currentP.1 + (nextP.1 - currentP.1) * t,
            currentP.2 + (nextP.2 - currentP.2) * t)
  | _, _ => none

/-- Proximity box test, from animate (Map.tsx 499-501): both absolute deltas
strictly below 0.0005 degrees.  Note the code compares photo.lat and
photo.lng unconditionally; hasGPS is not consulted here. -/
def inBox (p : PhotoWaypoint) (lng lat : ℚ) : Bool :=
  decide (|p.lat - lat| < 5 / 10000) && decide (|p.lng - lng| < 5 / 10000)

/-- The photo scan of animate (Map.tsx 496-513): walk photos in insertion
order, skip ids already in shownPhotoIds, return the first photo whose box
test passes (the loop breaks at the first hit). -/
def photoHit (shownIds : List String) (photos : List PhotoWaypoint)
    (lng lat : ℚ) : Option PhotoWaypoint :=
  photos.find? (fun p => !(shownIds.contains p.id) && inBox p lng lat)

/-- The mutable refs of the component that the playback engine reads and
writes (Map.tsx 26-40): play and pause flags, frame-timing reference,
accumulated simulated time, pace throttle reference, the set of photo ids
already shown this run, the active overlay photo, and bookkeeping for the
scheduled callbacks (the requestAnimationFrame handle, and the number of
setTimeout pause-resume timers currently pending, which the code never
stores and hence can never cancel). -/
structure SessionState where
  isPlaying : Bool
  isPaused : Bool
  lastFrameTime : ℚ
  animationProgressTime : ℚ
  lastPaceUpdateTime : ℚ
  shownPhotoIds : List String
  activePhoto : Option String
  pendingResumes : ℕ
  frameScheduled : Bool
deriving DecidableEq

/-- Values a single animate call hands to the outside world: the runner
marker position (when the interpolation ran), whether the next frame was
re-armed, whether a 1000 ms pause-resume timer was created, and whether the
recording collaborator was told to stop. -/
structure TickOutput where
  markerPos : Option (ℚ × ℚ)
  rearm : Bool
  scheduledResume : Bool
  stopSignal : Bool
deriving DecidableEq

/-- Initial ref values at component mount (Map.tsx 26-40). -/
def sInit : SessionState :=
  { isPlaying := false, isPaused := false, lastFrameTime := 0,
    animationProgressTime := 0, lastPaceUpdateTime := 0,
    shownPhotoIds := [], activePhoto := none, pendingResumes := 0,
    frameScheduled := false }

/-- One animate frame callback (Map.tsx 449-559), in source order: the
isPlaying guard; deltaTime from the previous frame reference, which is
overwritten before the pause check; the pause early-return that re-arms
without advancing simulated time; accumulation of elapsed simulated time
and progress = min(elapsed / 60000, 1); interpolation with its missing
sample guard; the photo scan, whose first hit pauses playback, records the
id, shows the overlay and schedules a 1000 ms resume; the completion branch
at progress >= 1 which stops playback and signals the recorder when one is
active; and the pace-throttle reference update.  Camera pose (bearing,
pitch, zoom) goes only to the renderer and carries no engine state, so it
is not recorded here. -/
def tick (coords : List (ℚ × ℚ)) (photos : List PhotoWaypoint)
    (recActive : Bool) (time : ℚ) (s : SessionState) :
    SessionState × TickOutput :=
  if s.isPlaying then
    let delta := time - s.lastFrameTime
    let s1 := { s with lastFrameTime := time }
    if s1.isPaused then
      ({ s1 with frameScheduled := true },
       { markerPos := none, rearm := true, scheduledResume := false,
         stopSignal := false })
    else
      let elapsed := s1.animationProgressTime + delta
      let s2 := { s1 with animationProgressTime := elapsed }
      let progress := min (elapsed / 60000) 1
      match positionAt coords progress with
      | none =>
          ({ s2 with frameScheduled := true },
           { markerPos := none, rearm := true, scheduledResume := false,
             stopSignal := false })
      | some pos =>
          let hit := photoHit s2.shownPhotoIds photos pos.1 pos.2
          let s3 :=
            match hit with
            | some p =>
                { s2 with isPaused := true,
                          shownPhotoIds := p.id :: s2.shownPhotoIds,
                          activePhoto := some p.id,
                          pendingResumes := s2.pendingResumes + 1 }
            | none => s2
          if 1 ≤ progress then
            ({ s3 with isPlaying := false, frameScheduled := false },
             { markerPos := some pos, rearm := false,
               scheduledResume := hit.isSome, stopSignal := recActive })
          else
            let s4 :=
              if 1000 < time - s3.lastPaceUpdateTime then
                { s3 with lastPaceUpdateTime := time }
              else s3
            ({ s4 with frameScheduled := true },
             { markerPos := some pos, rearm := true,
               scheduledResume := hit.isSome, stopSignal := false })
  else
    ({ s with frameScheduled := false },
     { markerPos := none, rearm := false, scheduledResume := false,
       stopSignal := false })

/-- The startAnimation entry point (Map.tsx 422-447, 560): the null-map /
null-GeoJSON guard returns before any mutation; otherwise the play, pause,
pace, elapsed and frame references are reset, shownPhotoIds is cleared and
the photos' shown flags reset; the missing-LineString guard then returns
without arming the loop, else the first frame is armed.  The first argument
is none when trackGeoJSON is null, some none when it has no LineString
feature, some (some coords) otherwise.  The previously armed frame is
cancelled (frameScheduled is simply overwritten), but the code holds no
reference to a pending setTimeout, so pendingResumes carries over, as does
the activePhoto overlay. -/
def startAnimation (geo : Option (Option (List (ℚ × ℚ)))) (now : ℚ)
    (s : SessionState) : SessionState :=
  match geo with
  | none => s
  | some feat =>
      let s1 : SessionState :=
        { s with isPlaying := true, isPaused := false,
                 lastPaceUpdateTime := 0, animationProgressTime := 0,
                 lastFrameTime := now, shownPhotoIds := [],
                 frameScheduled := false }
      match feat with
      | none => s1
      | some _ => { s1 with frameScheduled := true }

/-- The body of the 1000 ms pause-resume setTimeout (Map.tsx 506-510):
clears the overlay, unpauses, and resets the frame-timing reference to the
firing instant so the pause interval is not counted. -/
def fireResume (now : ℚ) (s : SessionState) : SessionState :=
  { s with activePhoto := none, isPaused := false, lastFrameTime := now,
           pendingResumes := s.pendingResumes - 1 }

/-- Fold a sequence of frame callbacks over the state. -/
def runTicks (coords : List (ℚ × ℚ)) (photos : List PhotoWaypoint)
    (recActive : Bool) (times : List ℚ) (s : SessionState) : SessionState :=
  times.foldl (fun st t => (tick coords photos recActive t st).1) s

/-- All intermediate states of a sequence of frame callbacks, the start
state included. -/
def traceStates (coords : List (ℚ × ℚ)) (photos : List PhotoWaypoint)
    (recActive : Bool) (times : List ℚ) (s : SessionState) :
    List SessionState :=
  times.scanl (fun st t => (tick coords photos recActive t st).1) s

/-- Number of adjacent state pairs in a trace where the given photo id
enters shownPhotoIds (a false-to-true flag transition). -/
def countFlags (pid : String) : List SessionState → ℕ
  | [] => 0
  | [_] => 0
  | a :: b :: rest =>
      (if pid ∉ a.shownPhotoIds ∧ pid ∈ b.shownPhotoIds
       then 1 else 0) + countFlags pid (b :: rest)

/-- Simulated progress derived from a state, as computed each tick. -/
def progressOf (s : SessionState) : ℚ :=
  min (s.animationProgressTime / 60000) 1

/-- Segment time delta in hours, from the pace block (Map.tsx 535-537):
difference of the two samples' epoch-millisecond times over 3600000 when
coordTimes is present, else the fixed fallback 0.000277 hours. -/
def timeDiffHours (coordTimes : Option (List ℚ)) (index nextIndex : ℕ) : ℚ :=
  match coordTimes with
  | some ts => ((ts.getD nextIndex 0) - (ts.getD index 0)) / 3600000
  | none => 277 / 1000000

/-- Math.round on an exact rational (round half toward positive infinity),
in a form the kernel evaluates; jsRound_eq_round identifies it with the
mathematical round, which has the same half-up convention. -/
def jsRound (q : ℚ) : ℤ :=
  jsFloor (q + 1 / 2)

theorem jsRound_eq_round (q : ℚ) : jsRound q = round q := by
  rw [jsRound, jsFloor_eq_floor, round_eq]

/-- Two-digit padding of the seconds part, from padStart with width 2 and
the zero digit as fill (Map.tsx 545). -/
def padTwo (n : ℤ) : String :=
  if n < 10 then ("0" ++ toString n) else toString n

/-- The pace emission of the pace block (Map.tsx 539-547): emits only when
both the segment distance and the time delta are strictly positive; pace in
minutes per km is 60 / (dist / timeDiffHours); whole minutes by floor,
seconds by rounding the fractional minutes times 60.  There is no upper
bound on the emitted pace. -/
def paceString (dist : ℚ) (tdh : ℚ) : Option String :=
  if 0 < dist ∧ 0 < tdh then
    let speed := dist / tdh
    let pace := 60 / speed
    let minVal : ℤ := jsFloor pace
    let secVal : ℤ := jsRound ((pace - (minVal : ℚ)) * 60)
    some (toString minVal ++ ":" ++ padTwo secVal ++ " /km")
  else none

end Relive

namespace Relive

theorem floor_fracIndex_bounds (n : ℕ) (p : ℚ) (hn : 2 ≤ n)
    (h0 : 0 ≤ p) (h1 : p ≤ 1) :
    0 ≤ ⌊p * ((n : ℚ) - 1)⌋ ∧ ⌊p * ((n : ℚ) - 1)⌋ ≤ (n : ℤ) - 1 := by
  have hn' : (2 : ℚ) ≤ (n : ℚ) := by exact_mod_cast hn
  have hb : (0 : ℚ) ≤ (n : ℚ) - 1 := by linarith
  refine ⟨Int.floor_nonneg.mpr (mul_nonneg h0 hb), ?_⟩
  have hfi : p * ((n : ℚ) - 1) ≤ (n : ℚ) - 1 := mul_le_of_le_one_left hb h1
  have hcast : ((n : ℚ) - 1) = (((n : ℤ) - 1 : ℤ) : ℚ) := by push_cast; ring
  calc ⌊p * ((n : ℚ) - 1)⌋ ≤ ⌊((n : ℚ) - 1)⌋ := Int.floor_le_floor hfi
    _ = (n : ℤ) - 1 := by rw [hcast, Int.floor_intCast]

theorem positionAt_eq (coords : List (ℚ × ℚ)) (p : ℚ)
    (hn : 2 ≤ coords.length) (h0 : 0 ≤ p) (h1 : p ≤ 1) :
    ∃ (i j : ℕ) (hi : i < coords.length) (hj : j < coords.length),
      (i : ℤ) = ⌊p * ((coords.length : ℚ) - 1)⌋ ∧
      j = min (i + 1) (coords.length - 1) ∧
      positionAt coords p =
        some ((coords.get ⟨i, hi⟩).1
                + ((coords.get ⟨j, hj⟩).1 - (coords.get ⟨i, hi⟩).1)
                  * (p * ((coords.length : ℚ) - 1) - (i : ℚ)),
              (coords.get ⟨i, hi⟩).2
                + ((coords.get ⟨j, hj⟩).2 - (coords.get ⟨i, hi⟩).2)
                  * (p * ((coords.length : ℚ) - 1) - (i : ℚ))) := by
  obtain ⟨hfl0, hfl1⟩ := floor_fracIndex_bounds coords.length p hn h0 h1
  have htoNat : ((⌊p * ((coords.length : ℚ) - 1)⌋.toNat : ℤ))
      = ⌊p * ((coords.length : ℚ) - 1)⌋ := Int.toNat_of_nonneg hfl0
  have hj0 : 0 ≤ min (⌊p * ((coords.length : ℚ) - 1)⌋ + 1)
      ((coords.length : ℤ) - 1) := by omega
  have hjtoNat : (((min (⌊p * ((coords.length : ℚ) - 1)⌋ + 1)
      ((coords.length : ℤ) - 1)).toNat : ℤ))
      = min (⌊p * ((coords.length : ℚ) - 1)⌋ + 1) ((coords.length : ℤ) - 1) :=
    Int.toNat_of_nonneg hj0
  have hi : ⌊p * ((coords.length : ℚ) - 1)⌋.toNat < coords.length := by omega
  have hj : (min (⌊p * ((coords.length : ℚ) - 1)⌋ + 1)
      ((coords.length : ℤ) - 1)).toNat < coords.length := by omega
  refine ⟨_, _, hi, hj, htoNat, by omega, ?_⟩
  have e1 : getI coords ⌊p * ((coords.length : ℚ) - 1)⌋
      = some (coords.get ⟨_, hi⟩) := by
    rw [getI, if_pos hfl0, List.get?_eq_get hi]
  have e2 : getI coords (min (⌊p * ((coords.length : ℚ) - 1)⌋ + 1)
      ((coords.length : ℤ) - 1)) = some (coords.get ⟨_, hj⟩) := by
    rw [getI, if_pos hj0, List.get?_eq_get hj]
  have hQ : ((⌊p * ((coords.length : ℚ) - 1)⌋.toNat : ℕ) : ℚ)
      = ((⌊p * ((coords.length : ℚ) - 1)⌋ : ℤ) : ℚ) := by exact_mod_cast htoNat
  simp only [positionAt, jsFloor_eq_floor, e1, e2, htoNat, hQ]

theorem positionAt_zero (coords : List (ℚ × ℚ)) (hn : 2 ≤ coords.length) :
    positionAt coords 0 = coords.head? := by
  obtain ⟨c, hc⟩ : ∃ c, coords.get? 0 = some c :=
    ⟨_, List.get?_eq_get (by omega)⟩
  obtain ⟨d, hd⟩ : ∃ d, coords.get? 1 = some d :=
    ⟨_, List.get?_eq_get (by omega)⟩
  have hf : jsFloor (0 : ℚ) = 0 := by
    rw [jsFloor_eq_floor, Int.floor_zero]
  have hm : min ((0 : ℤ) + 1) ((coords.length : ℤ) - 1) = 1 := by omega
  have e1 : getI coords 0 = some c := by
    rw [getI, if_pos le_rfl]; exact hc
  have e2 : getI coords 1 = some d := by
    rw [getI, if_pos (by omega)]; exact hd
  simp only [positionAt, zero_mul, hf, hm, e1, e2, Int.cast_zero, sub_zero,
    zero_sub, neg_zero, mul_zero, add_zero, Prod.mk.eta]
  rw [← List.get?_zero coords, hc]

theorem positionAt_one (coords : List (ℚ × ℚ)) (hn : 2 ≤ coords.length) :
    positionAt coords 1 = coords.getLast? := by
  obtain ⟨c, hc⟩ : ∃ c, coords.get? (coords.length - 1) = some c :=
    ⟨_, List.get?_eq_get (by omega)⟩
  have hcast : (1 : ℚ) * ((coords.length : ℚ) - 1)
      = (((coords.length : ℤ) - 1 : ℤ) : ℚ) := by push_cast; ring
  have hf : jsFloor (1 * ((coords.length : ℚ) - 1))
      = (coords.length : ℤ) - 1 := by
    rw [jsFloor_eq_floor, hcast, Int.floor_intCast]
  have hm : min ((coords.length : ℤ) - 1 + 1) ((coords.length : ℤ) - 1)
      = (coords.length : ℤ) - 1 := by omega
  have htn : ((coords.length : ℤ) - 1).toNat = coords.length - 1 := by omega
  have e : getI coords ((coords.length : ℤ) - 1) = some c := by
    rw [getI, if_pos (by omega), htn]; exact hc
  have ht : (1 : ℚ) * ((coords.length : ℚ) - 1)
      - (((coords.length : ℤ) - 1 : ℤ) : ℚ) = 0 := by push_cast; ring
  simp only [positionAt, hf, hm, e, ht, mul_zero, add_zero, Prod.mk.eta]
  rw [List.getLast?_eq_get? coords, hc]

/-- C1: for a track of at least two points and progress in the unit
interval, positionAt maps progress to the fractional index
progress * (N - 1) and yields the linear interpolation (convex
combination) of the floor-index sample and the ceiling-index sample
min (floor + 1, N - 1); at progress 0 it returns the first point and at
progress 1 it returns the last point exactly. -/
theorem C1_positionAt_linear_interpolation (coords : List (ℚ × ℚ)) (p : ℚ)
    (hn : 2 ≤ coords.length) (h0 : 0 ≤ p) (h1 : p ≤ 1) :
    (∃ (i j : ℕ) (hi : i < coords.length) (hj : j < coords.length),
      (i : ℤ) = ⌊p * ((coords.length : ℚ) - 1)⌋ ∧
      j = min (i + 1) (coords.length - 1) ∧
      positionAt coords p =
        some ((1 - (p * ((coords.length : ℚ) - 1) - (i : ℚ)))
                * (coords.get ⟨i, hi⟩).1
              + (p * ((coords.length : ℚ) - 1) - (i : ℚ))
                * (coords.get ⟨j, hj⟩).1,
              (1 - (p * ((coords.length : ℚ) - 1) - (i : ℚ)))
                * (coords.get ⟨i, hi⟩).2
              + (p * ((coords.length : ℚ) - 1) - (i : ℚ))
                * (coords.get ⟨j, hj⟩).2)) ∧
    positionAt coords 0 = coords.head? ∧
    positionAt coords 1 = coords.getLast? := by
  refine ⟨?_, positionAt_zero coords hn, positionAt_one coords hn⟩
  obtain ⟨i, j, hi, hj, hif, hjm, heq⟩ := positionAt_eq coords p hn h0 h1
  refine ⟨i, j, hi, hj, hif, hjm, ?_⟩
  rw [heq]
  simp only [Option.some.injEq, Prod.mk.injEq]
  constructor <;> ring

/-- Instantiation of C1 at a concrete two-point track and progress 0. -/
theorem C1_positionAt_linear_interpolation_witness :
    2 ≤ ([((0 : ℚ), (0 : ℚ)), (2, 4)] : List (ℚ × ℚ)).length ∧
    positionAt [((0 : ℚ), (0 : ℚ)), (2, 4)] 0 = some ((0 : ℚ), (0 : ℚ)) := by
  refine ⟨by decide, ?_⟩
  have h := (C1_positionAt_linear_interpolation [((0 : ℚ), (0 : ℚ)), (2, 4)] 0
    (by decide) (by decide) (by decide)).2.1
  rw [h]
  rfl

theorem tick_elapsed_mono (coords : List (ℚ × ℚ))
    (photos : List PhotoWaypoint) (recActive : Bool) (time : ℚ)
    (s : SessionState) (h : s.lastFrameTime ≤ time) :
    s.animationProgressTime
      ≤ (tick coords photos recActive time s).1.animationProgressTime ∧
    (tick coords photos recActive time s).1.lastFrameTime ≤ time := by
  simp only [tick]
  repeat' split
  all_goals constructor <;> simp <;> linarith

theorem runTicks_cons (coords : List (ℚ × ℚ)) (photos : List PhotoWaypoint)
    (recActive : Bool) (t : ℚ) (ts : List ℚ) (s : SessionState) :
    runTicks coords photos recActive (t :: ts) s
      = runTicks coords photos recActive ts
          (tick coords photos recActive t s).1 := rfl

theorem runTicks_elapsed_mono (coords : List (ℚ × ℚ))
    (photos : List PhotoWaypoint) (recActive : Bool) :
    ∀ (times : List ℚ) (s : SessionState),
      List.Chain (· ≤ ·) s.lastFrameTime times →
      s.animationProgressTime
        ≤ (runTicks coords photos recActive times s).animationProgressTime
  | [], _, _ => le_rfl
  | t :: ts, s, h => by
    cases h with
    | cons hle htail =>
      obtain ⟨hmono, hlf⟩ := tick_elapsed_mono coords photos recActive t s hle
      have htail' : List.Chain (· ≤ ·)
          ((tick coords photos recActive t s).1).lastFrameTime ts := by
        cases htail with
        | nil => exact List.Chain.nil
        | cons hub htl => exact List.Chain.cons (le_trans hlf hub) htl
      have hrec := runTicks_elapsed_mono coords photos recActive ts
        ((tick coords photos recActive t s).1) htail'
      rw [runTicks_cons]
      exact le_trans hmono hrec

theorem progressOf_mono {a b : SessionState}
    (h : a.animationProgressTime ≤ b.animationProgressTime) :
    progressOf a ≤ progressOf b := by
  have := (div_le_div_right (by norm_num : (0 : ℚ) < 60000)).mpr h
  exact min_le_min this le_rfl

/-- C2: over any sequence of frame callbacks with chained non-decreasing
timestamps, the derived progress value never decreases; and a callback
arriving while the engine is paused leaves the accumulated simulated time
elapsedMs (hence progress) unchanged, whatever its timestamp. -/
theorem C2_progress_monotone (coords : List (ℚ × ℚ))
    (photos : List PhotoWaypoint) (recActive : Bool) (s : SessionState)
    (times : List ℚ)
    (hchain : List.Chain (· ≤ ·) s.lastFrameTime times) :
    progressOf s ≤ progressOf (runTicks coords photos recActive times s) ∧
    ∀ t, s.isPaused = true →
      ((tick coords photos recActive t s).1).animationProgressTime
        = s.animationProgressTime := by
  constructor
  · exact progressOf_mono
      (runTicks_elapsed_mono coords photos recActive times s hchain)
  · intro t hq
    by_cases hp : s.isPlaying = true
    · simp [tick, hp, hq]
    · simp [tick, hp]

/-- Instantiation of C2 on a concrete two-point track and two chained
frame timestamps. -/
theorem C2_progress_monotone_witness :
    progressOf (startAnimation (some (some [((0 : ℚ), 0), (1, 1)])) 0 sInit)
      ≤ progressOf (runTicks [((0 : ℚ), 0), (1, 1)] [] false [16, 32]
          (startAnimation (some (some [((0 : ℚ), 0), (1, 1)])) 0 sInit)) :=
  (C2_progress_monotone [((0 : ℚ), 0), (1, 1)] [] false
    (startAnimation (some (some [((0 : ℚ), 0), (1, 1)])) 0 sInit) [16, 32]
    (List.Chain.cons (by decide)
      (List.Chain.cons (by decide) List.Chain.nil))).1

theorem find?_eq_some_first {α : Type} (q : α → Bool) :
    ∀ (l : List α) (a : α), l.find? q = some a →
      ∃ (i : ℕ) (hi : i < l.length), l.get ⟨i, hi⟩ = a ∧ q a = true ∧
        ∀ (k : ℕ) (hk : k < i), q (l.get ⟨k, lt_trans hk hi⟩) = false
  | [], a, h => by simp at h
  | x :: xs, a, h => by
    rw [List.find?_cons] at h
    cases hqx : q x with
    | true =>
        rw [hqx] at h
        obtain rfl : x = a := by simpa using h
        exact ⟨0, by simp, rfl, hqx, fun k hk => absurd hk (Nat.not_lt_zero k)⟩
    | false =>
        rw [hqx] at h
        obtain ⟨i, hi, hget, hqa, hfirst⟩ := find?_eq_some_first q xs a h
        refine ⟨i + 1, by simpa using Nat.succ_lt_succ hi, hget, hqa, ?_⟩
        intro k hk
        cases k with
        | zero => exact hqx
        | succ k' => exact hfirst k' (Nat.lt_of_succ_lt_succ hk)

/-- PhotoWaypoint whose EXIF location extraction has not succeeded: the
upload handler leaves the placeholder coordinates (0, 0) with
hasGPS = false (Map.tsx 316-324). -/
def photoNoGPS : PhotoWaypoint :=
  { id := "p1", url := "u", lat := 0, lng := 0, shown := false,
    hasGPS := false, timestamp := none }

/-- C3 counterexample: the proximity scan does not skip a waypoint without
an extracted location; with the simulated position at (0, 0), a hasGPS =
false waypoint sitting at the placeholder (0, 0) is returned. -/
theorem C3_no_location_skipped_counterexample :
    photoNoGPS.hasGPS = false ∧
    photoHit [] [photoNoGPS] 0 0 = some photoNoGPS := by decide

/-- C3 amended: the scan walks waypoints in insertion order and skips
exactly those whose id is already flagged shown; a waypoint with no
extracted location is not skipped, it participates with its placeholder
coordinates.  The scan returns none exactly when no waypoint is eligible
and inside the box, and otherwise returns the single first (lowest
insertion index) eligible waypoint whose absolute latitude and longitude
deltas are both strictly below 0.0005. -/
theorem C3_first_match_insertion_order (shownIds : List String)
    (photos : List PhotoWaypoint) (lng lat : ℚ) :
    (photoHit shownIds photos lng lat = none ↔
      ∀ p ∈ photos, shownIds.contains p.id = true ∨ inBox p lng lat = false) ∧
    (∀ p, photoHit shownIds photos lng lat = some p →
      shownIds.contains p.id = false ∧ inBox p lng lat = true ∧
      ∃ (i : ℕ) (hi : i < photos.length), photos.get ⟨i, hi⟩ = p ∧
        ∀ (k : ℕ) (hk : k < i),
          shownIds.contains (photos.get ⟨k, lt_trans hk hi⟩).id = true ∨
          inBox (photos.get ⟨k, lt_trans hk hi⟩) lng lat = false) := by
  constructor
  · rw [photoHit, List.find?_eq_none]
    constructor
    · intro h p hp
      have hnp : ¬ ((!(shownIds.contains p.id) && inBox p lng lat) = true) :=
        h p hp
      rw [Bool.and_eq_true, Bool.not_eq_true'] at hnp
      cases hc : shownIds.contains p.id with
      | true => exact Or.inl rfl
      | false =>
          cases hb : inBox p lng lat with
          | false => exact Or.inr rfl
          | true => exact absurd ⟨hc, hb⟩ hnp
    · intro h p hp
      show ¬ ((!(shownIds.contains p.id) && inBox p lng lat) = true)
      rw [Bool.and_eq_true, Bool.not_eq_true']
      rintro ⟨hc, hb⟩
      rcases h p hp with hcc | hbb
      · rw [hc] at hcc; cases hcc
      · rw [hb] at hbb; cases hbb
  · intro p hfind
    rw [photoHit] at hfind
    have hq := List.find?_some hfind
    simp only [Bool.and_eq_true, Bool.not_eq_true'] at hq
    obtain ⟨i, hi, hget, _, hfirst⟩ :=
      find?_eq_some_first _ photos p hfind
    refine ⟨hq.1, hq.2, i, hi, hget, ?_⟩
    intro k hk
    have hqk := hfirst k hk
    simp only [Bool.and_eq_false_iff, Bool.not_eq_false'] at hqk
    rcases hqk with hc | hb
    · exact Or.inl hc
    · exact Or.inr hb

/-- Instantiation of C3's amended characterization: the scan over an empty
waypoint list returns none. -/
theorem C3_first_match_insertion_order_witness :
    photoHit [] [] 0 0 = none :=
  (C3_first_match_insertion_order [] [] 0 0).1.mpr (by simp)

/-- C10: the proximity threshold is exclusive: any waypoint the scan
returns has both absolute deltas strictly below 0.0005 degrees, and a
waypoint with either delta exactly equal to 0.0005 is never returned. -/
theorem C10_threshold_exclusive (shownIds : List String)
    (photos : List PhotoWaypoint) (lng lat : ℚ) (p : PhotoWaypoint) :
    (photoHit shownIds photos lng lat = some p →
      |p.lat - lat| < 5 / 10000 ∧ |p.lng - lng| < 5 / 10000) ∧
    ((|p.lat - lat| = 5 / 10000 ∨ |p.lng - lng| = 5 / 10000) →
      photoHit shownIds photos lng lat ≠ some p) := by
  have hbox : photoHit shownIds photos lng lat = some p →
      |p.lat - lat| < 5 / 10000 ∧ |p.lng - lng| < 5 / 10000 := by
    intro hfind
    rw [photoHit] at hfind
    have hq := List.find?_some hfind
    simp only [Bool.and_eq_true] at hq
    have hb := hq.2
    rw [inBox, Bool.and_eq_true] at hb
    exact ⟨of_decide_eq_true hb.1, of_decide_eq_true hb.2⟩
  refine ⟨hbox, ?_⟩
  rintro hbd hfind
  obtain ⟨hlt1, hlt2⟩ := hbox hfind
  rcases hbd with hbd | hbd
  · rw [hbd] at hlt1; exact lt_irrefl _ hlt1
  · rw [hbd] at hlt2; exact lt_irrefl _ hlt2

/-- PhotoWaypoint sitting exactly at the 0.0005-degree latitude boundary
from the origin. -/
def photoBoundary : PhotoWaypoint :=
  { id := "b", url := "u", lat := 5 / 10000, lng := 0, shown := false,
    hasGPS := true, timestamp := none }

/-- Instantiation of C10 at a waypoint with latitude delta exactly 0.0005:
it is not returned. -/
theorem C10_threshold_exclusive_witness :
    photoHit [] [photoBoundary] 0 0 ≠ some photoBoundary :=
  (C10_threshold_exclusive [] [photoBoundary] 0 0 photoBoundary).2
    (Or.inl (by decide))

/-- C5 counterexample: the pace block has no cutoff for paces of 30
minutes or more, and absent timestamps do not suppress the emission: the
fallback 0.000277-hour delta is substituted and a string is emitted for
any positive distance.  Both none-cases of the claim fail on the code. -/
theorem C5_pace_none_cases_counterexample :
    paceString 1 (timeDiffHours none 0 1) = some ("0:01 /km") ∧
    paceString 1 (timeDiffHours (some [0, 1800000]) 0 1)
      = some ("30:00 /km") := by decide

/-- C5 amended: the pace block emits nothing exactly when the segment
distance or the derived time delta is non-positive; with timestamps
present the delta is the epoch-millisecond difference over 3600000, so
zero or negative time deltas and zero distances yield none; with
timestamps absent the fixed positive fallback is used, so a string is
emitted for every positive distance; no upper pace cutoff exists. -/
theorem C5_pace_gating (dist tdh : ℚ) (ts : List ℚ) (i j : ℕ) :
    (paceString dist tdh = none ↔ dist ≤ 0 ∨ tdh ≤ 0) ∧
    (timeDiffHours (some ts) i j
      = ((ts.getD j 0) - (ts.getD i 0)) / 3600000) ∧
    (0 < dist → ∃ str, paceString dist (timeDiffHours none i j)
      = some str) := by
  refine ⟨?_, rfl, ?_⟩
  · rw [paceString]
    by_cases h : 0 < dist ∧ 0 < tdh
    · rw [if_pos h]
      constructor
      · intro hx
        exact absurd hx (Option.some_ne_none _)
      · intro hx
        rcases hx with h1 | h1
        · exact absurd h.1 (not_lt.mpr h1)
        · exact absurd h.2 (not_lt.mpr h1)
    · rw [if_neg h]
      rw [not_and_or, not_lt, not_lt] at h
      exact ⟨fun _ => h, fun _ => rfl⟩
  · intro hd
    have hts : timeDiffHours none i j = 277 / 1000000 := rfl
    rw [hts, paceString, if_pos ⟨hd, by norm_num⟩]
    exact ⟨_, rfl⟩

/-- Instantiation of C5's amended characterization: zero distance emits
nothing. -/
theorem C5_pace_gating_witness :
    paceString 0 1 = none :=
  (C5_pace_gating 0 1 [] 0 1).1.mpr (Or.inl le_rfl)

/-- C9 counterexample: a track with a single point is not rejected:
startAnimation still flips isPlaying to true (it was false), resets the
run state and arms the frame loop; no InvalidTrack error path exists. -/
theorem C9_short_track_not_rejected_counterexample :
    (startAnimation (some (some [((0 : ℚ), 0)])) 5 sInit).isPlaying = true ∧
    (startAnimation (some (some [((0 : ℚ), 0)])) 5 sInit).frameScheduled
      = true ∧
    sInit.isPlaying = false := by decide

/-- C9 amended: startAnimation performs no minimum-point-count validation:
even for a track with fewer than two points it resets the playback state
(isPlaying true, elapsed 0, shown flags cleared) and arms the frame loop;
the only guard that leaves all state untouched is a null trackGeoJSON. -/
theorem C9_no_validation (coords : List (ℚ × ℚ)) (now : ℚ)
    (s : SessionState) (hshort : coords.length < 2) :
    (startAnimation (some (some coords)) now s).isPlaying = true ∧
    (startAnimation (some (some coords)) now s).animationProgressTime = 0 ∧
    (startAnimation (some (some coords)) now s).shownPhotoIds = [] ∧
    (startAnimation (some (some coords)) now s).frameScheduled = true ∧
    startAnimation none now s = s := by
  refine ⟨rfl, rfl, rfl, rfl, rfl⟩

/-- Instantiation of C9's amended statement on a one-point track. -/
theorem C9_no_validation_witness :
    (startAnimation (some (some [((0 : ℚ), 0)])) 5 sInit).isPlaying
      = true :=
  (C9_no_validation [((0 : ℚ), 0)] 5 sInit (by decide)).1

/-- Concrete two-point demo track. -/
def coordsDemo : List (ℚ × ℚ) := [(0, 0), (1, 1)]

/-- Waypoint placed exactly at the interpolated position reached 100 ms
into the 60000 ms run on coordsDemo. -/
def photoDemo : PhotoWaypoint :=
  { id := "w", url := "u", lat := 1 / 600, lng := 1 / 600, shown := false,
    hasGPS := true, timestamp := none }

/-- C6: starting a new run does not cancel the previous run's pending
1000 ms pause-resume timer (the code never stores the setTimeout handle):
after start, trigger, start, the stale timer is still pending, and when
the second run pauses on its own waypoint the stale callback fires and
un-pauses it prematurely — a stale callback from the old run mutates the
new run's playback state. -/
theorem C6_stale_resume_timer_code_bug :
    (startAnimation (some (some coordsDemo)) 200
        (tick coordsDemo [photoDemo] false 100
          (startAnimation (some (some coordsDemo)) 0 sInit)).1).pendingResumes
      = 1 ∧
    ((tick coordsDemo [photoDemo] false 300
        (startAnimation (some (some coordsDemo)) 200
          (tick coordsDemo [photoDemo] false 100
            (startAnimation (some (some coordsDemo)) 0 sInit)).1)).1).isPaused
      = true ∧
    (fireResume 1100
        ((tick coordsDemo [photoDemo] false 300
          (startAnimation (some (some coordsDemo)) 200
            (tick coordsDemo [photoDemo] false 100
              (startAnimation (some (some coordsDemo)) 0 sInit)).1)).1)).isPaused
      = false := by decide

/-- Waypoint sitting exactly on the final point of coordsDemo. -/
def photoAtEnd : PhotoWaypoint :=
  { id := "e", url := "u", lat := 1, lng := 1, shown := false,
    hasGPS := true, timestamp := none }

/-- C8 counterexample: when a waypoint triggers on the very tick that
reaches progress 1, the photo scan pauses first and the completion branch
then clears isPlaying, leaving the reachable state isPaused = true with
isPlaying = false. -/
theorem C8_paused_without_playing_counterexample :
    ((tick coordsDemo [photoAtEnd] false 60000
        (startAnimation (some (some coordsDemo)) 0 sInit)).1).isPaused
      = true ∧
    ((tick coordsDemo [photoAtEnd] false 60000
        (startAnimation (some (some coordsDemo)) 0 sInit)).1).isPlaying
      = false := by decide

theorem tick_not_playing (coords : List (ℚ × ℚ))
    (photos : List PhotoWaypoint) (recActive : Bool) (t : ℚ)
    (s : SessionState) (h : s.isPlaying = false) :
    tick coords photos recActive t s
      = ({ s with frameScheduled := false },
         { markerPos := none, rearm := false, scheduledResume := false,
           stopSignal := false }) := by
  simp [tick, h]

theorem tick_paused (coords : List (ℚ × ℚ)) (photos : List PhotoWaypoint)
    (recActive : Bool) (t : ℚ) (s : SessionState)
    (hp : s.isPlaying = true) (hq : s.isPaused = true) :
    tick coords photos recActive t s
      = ({ s with lastFrameTime := t, frameScheduled := true },
         { markerPos := none, rearm := true, scheduledResume := false,
           stopSignal := false }) := by
  simp [tick, hp, hq]

/-- C7: on a tick whose accumulated simulated time reaches the 60000 ms
duration, the marker emitted on that same tick is exactly the final track
point, playback stops (isPlaying false), the stop signal goes to the
recorder exactly when one is active, no further frame is armed, and every
subsequent tick leaves the accumulated elapsedMs unchanged. -/
theorem C7_completion (coords : List (ℚ × ℚ)) (photos : List PhotoWaypoint)
    (recActive : Bool) (time : ℚ) (s : SessionState)
    (hn : 2 ≤ coords.length) (hp : s.isPlaying = true)
    (hq : s.isPaused = false)
    (hdone : 60000 ≤ s.animationProgressTime + (time - s.lastFrameTime)) :
    (tick coords photos recActive time s).2.markerPos = coords.getLast? ∧
    (tick coords photos recActive time s).1.isPlaying = false ∧
    (tick coords photos recActive time s).2.stopSignal = recActive ∧
    (tick coords photos recActive time s).2.rearm = false ∧
    ∀ t', ((tick coords photos recActive t'
        (tick coords photos recActive time s).1).1).animationProgressTime
      = (tick coords photos recActive time s).1.animationProgressTime := by
  have hprog : min ((s.animationProgressTime + (time - s.lastFrameTime))
      / 60000) (1 : ℚ) = 1 := by
    apply min_eq_right
    rw [le_div_iff (by norm_num : (0 : ℚ) < 60000)]
    linarith
  obtain ⟨c, hc⟩ : ∃ c, coords.getLast? = some c := by
    cases coords with
    | nil => simp at hn
    | cons x xs => exact ⟨_, List.getLast?_eq_getLast_of_ne_nil (by simp)⟩
  have hpos1 : positionAt coords 1 = some c := by
    rw [positionAt_one coords hn, hc]
  have hmark : (tick coords photos recActive time s).2.markerPos
      = some c := by
    simp [tick, hp, hq, hprog, hpos1]
  have hplay : (tick coords photos recActive time s).1.isPlaying
      = false := by
    simp [tick, hp, hq, hprog, hpos1]
  refine ⟨by rw [hmark, hc], hplay, ?_, ?_, ?_⟩
  · simp [tick, hp, hq, hprog, hpos1]
  · simp [tick, hp, hq, hprog, hpos1]
  · intro t'
    rw [tick_not_playing coords photos recActive t' _ hplay]

/-- Instantiation of C7 on a concrete two-point run completing in one
60000 ms tick with a recording active. -/
theorem C7_completion_witness :
    ((tick coordsDemo [] true 60000
      (startAnimation (some (some coordsDemo)) 0 sInit)).1).isPlaying
      = false :=
  (C7_completion coordsDemo [] true 60000
    (startAnimation (some (some coordsDemo)) 0 sInit)
    (by decide) (by decide) (by decide) (by decide)).2.1

/-- C8 amended: isPaused does not imply isPlaying in all reachable states
(the counterexample pauses on the completing tick); what every operation
of the engine preserves instead is that a paused state always has a
pending 1000 ms resume timer, whose unconditional callback clears
isPaused: the pause cannot outlive its timer. -/
theorem C8_paused_has_pending_resume (coords : List (ℚ × ℚ))
    (photos : List PhotoWaypoint) (recActive : Bool) :
    (sInit.isPaused = true → 1 ≤ sInit.pendingResumes) ∧
    (∀ (g : Option (Option (List (ℚ × ℚ)))) (t : ℚ) (s : SessionState),
      (s.isPaused = true → 1 ≤ s.pendingResumes) →
      (startAnimation g t s).isPaused = true →
        1 ≤ (startAnimation g t s).pendingResumes) ∧
    (∀ (t : ℚ) (s : SessionState),
      (s.isPaused = true → 1 ≤ s.pendingResumes) →
      ((tick coords photos recActive t s).1).isPaused = true →
        1 ≤ ((tick coords photos recActive t s).1).pendingResumes) ∧
    (∀ (t : ℚ) (s : SessionState),
      (fireResume t s).isPaused = true →
        1 ≤ (fireResume t s).pendingResumes) := by
  refine ⟨by simp [sInit], ?_, ?_, ?_⟩
  · intro g t s hInv
    rcases g with _ | g
    · exact hInv
    · rcases g with _ | c <;> simp [startAnimation]
  · intro t s hInv
    simp only [tick]
    repeat' split
    all_goals simp_all
  · intro t s
    simp [fireResume]

/-- Instantiation of C8's amended invariant on the paused state produced
by a concrete triggering tick. -/
theorem C8_paused_has_pending_resume_witness :
    1 ≤ ((tick coordsDemo [photoDemo] false 150
        (tick coordsDemo [photoDemo] false 100
          (startAnimation (some (some coordsDemo)) 0 sInit)).1).1).pendingResumes :=
  (C8_paused_has_pending_resume coordsDemo [photoDemo] false).2.2.1 150
    (tick coordsDemo [photoDemo] false 100
      (startAnimation (some (some coordsDemo)) 0 sInit)).1
    (by decide) (by decide)

theorem tick_shown_monotone (coords : List (ℚ × ℚ))
    (photos : List PhotoWaypoint) (recActive : Bool) (t : ℚ)
    (s : SessionState) (pid : String) (h : pid ∈ s.shownPhotoIds) :
    pid ∈ ((tick coords photos recActive t s).1).shownPhotoIds := by
  simp only [tick]
  repeat' split
  all_goals simp_all

theorem chain'_scanl (R : SessionState → SessionState → Prop)
    (f : SessionState → ℚ → SessionState)
    (hR : ∀ s t, R s (f s t)) :
    ∀ (times : List ℚ) (s : SessionState),
      List.Chain' R (times.scanl f s)
  | [], s => by simp
  | t :: ts, s => by
    rw [List.scanl_cons, List.singleton_append, List.chain'_cons']
    refine ⟨?_, chain'_scanl R f hR ts (f s t)⟩
    intro b hb
    have hhead : (ts.scanl f (f s t)).head? = some (f s t) := by
      rw [← List.get?_zero]
      exact List.get?_zero_scanl
    rw [hhead] at hb
    obtain rfl : f s t = b := by simpa using hb
    exact hR s t

theorem countFlags_zero (pid : String) :
    ∀ (a : SessionState) (rest : List SessionState),
      List.Chain'
        (fun x y => pid ∈ x.shownPhotoIds → pid ∈ y.shownPhotoIds)
        (a :: rest) →
      pid ∈ a.shownPhotoIds → countFlags pid (a :: rest) = 0
  | _, [], _, _ => rfl
  | a, b :: rest, hch, hmem => by
    rw [List.chain'_cons] at hch
    have hb : pid ∈ b.shownPhotoIds := hch.1 hmem
    rw [countFlags, if_neg (by simp [hmem]),
      countFlags_zero pid b rest hch.2 hb]

theorem countFlags_le_one (pid : String) :
    ∀ (ss : List SessionState),
      List.Chain'
        (fun x y => pid ∈ x.shownPhotoIds → pid ∈ y.shownPhotoIds) ss →
      countFlags pid ss ≤ 1
  | [], _ => by simp [countFlags]
  | [_], _ => by simp [countFlags]
  | a :: b :: rest, hch => by
    rw [List.chain'_cons] at hch
    rw [countFlags]
    by_cases hmem : pid ∈ b.shownPhotoIds
    · rw [countFlags_zero pid b rest hch.2 hmem]
      split_ifs <;> omega
    · rw [if_neg (fun hc => hmem hc.2)]
      simpa using countFlags_le_one pid (b :: rest) hch.2

/-- C4: within one run the shown flag of every waypoint is monotone and
set at most once: the run starts with the shown set cleared; along any
trace of ticks the number of false-to-true transitions of a given id is
at most one; and a tick whose emitted marker position makes the proximity
scan return a waypoint does flag that waypoint in the post-state. -/
theorem C4_shown_flag_once_per_run (coords : List (ℚ × ℚ))
    (photos : List PhotoWaypoint) (recActive : Bool) (t0 : ℚ)
    (s : SessionState) (times : List ℚ) (pid : String) :
    (startAnimation (some (some coords)) t0 s).shownPhotoIds = [] ∧
    countFlags pid (traceStates coords photos recActive times
      (startAnimation (some (some coords)) t0 s)) ≤ 1 ∧
    (∀ (s' : SessionState) (t lng lat : ℚ) (p : PhotoWaypoint),
      (tick coords photos recActive t s').2.markerPos = some (lng, lat) →
      photoHit s'.shownPhotoIds photos lng lat = some p →
      p.id ∈ ((tick coords photos recActive t s').1).shownPhotoIds) := by
  refine ⟨rfl, ?_, ?_⟩
  · exact countFlags_le_one pid _
      (chain'_scanl _ _
        (fun s' t => fun hm =>
          tick_shown_monotone coords photos recActive t s' pid hm)
        times (startAnimation (some (some coords)) t0 s))
  · intro s' t lng lat p hm hph
    by_cases h1 : s'.isPlaying = true
    · by_cases h2 : s'.isPaused = true
      · rw [tick_paused coords photos recActive t s' h1 h2] at hm
        simp at hm
      · have h2' : s'.isPaused = false := by
          cases hb : s'.isPaused
          · rfl
          · exact absurd hb h2
        rcases hpos : positionAt coords
            (min ((s'.animationProgressTime + (t - s'.lastFrameTime))
              / 60000) 1) with _ | pos
        · simp [tick, h1, h2', hpos] at hm
        · have hpos' : pos = (lng, lat) := by
            by_cases h3 : (1 : ℚ) ≤
                min ((s'.animationProgressTime + (t - s'.lastFrameTime))
                  / 60000) 1 <;>
              simp [tick, h1, h2', hpos, h3] at hm <;> exact hm
          subst hpos'
          by_cases h3 : (1 : ℚ) ≤
              min ((s'.animationProgressTime + (t - s'.lastFrameTime))
                / 60000) 1 <;>
            simp [tick, h1, h2', hpos, h3, hph] <;>
            split_ifs <;> simp
    · rw [tick_not_playing coords photos recActive t s'
        (by cases hb : s'.isPlaying; rfl; exact absurd hb h1)] at hm
      simp at hm

/-- Instantiation of C4 on a concrete run: the demo waypoint's flag
transitions at most once over a three-tick trace that sits inside its
proximity box. -/
theorem C4_shown_flag_once_per_run_witness :
    countFlags "w" (traceStates coordsDemo [photoDemo] false [100, 101, 102]
      (startAnimation (some (some coordsDemo)) 0 sInit)) ≤ 1 :=
  (C4_shown_flag_once_per_run coordsDemo [photoDemo] false 0 sInit
    [100, 101, 102] "w").2.1

end Relive
